import Mathlib

/-!
Verification of the Deferred Notification Scheduler of `src/tools/alarm.py`
(class `AlarmManager` and the `snooze_alarm` tool wrapper).

Shallow embedding conventions:
* Wall-clock timestamps (`datetime`) are integers (seconds); `timedelta(minutes=k)`
  is `k * 60` seconds. Each operation receives the current time `now` explicitly,
  standing for the `datetime.now()` calls it makes.
* The Python dicts `self.alarms : Dict[str, Alarm]` and
  `self.alarm_tasks : Dict[str, asyncio.Task]` become insertion-ordered
  association lists `List (String × _)`; an `asyncio.Task` handle is a `Nat`
  token, freshly allocated from `nextToken` by `asyncio.create_task`.
* `task.cancel()` is modelled by recording the token in the `cancelled` list:
  a cancelled waiter never resumes past its suspension point, so a firing step
  of the transition system requires its token not to be cancelled.
* Fallible Python code that returns normally is a total Lean function; the
  notification sink's presence and failure are environment booleans.
-/

/-- The `Alarm` dataclass of `alarm.py` (lines 21-28). -/
structure Alarm where
  id : String
  time : Int
  message : String
  created_at : Int
  active : Bool := true
  deriving DecidableEq, Repr

/-- Snapshot dictionary returned by `get_alarm` / `list_alarms`
(lines 131-139 and 149-156). -/
structure AlarmSnapshot where
  id : String
  time : Int
  message : String
  created_at : Int
  active : Bool
  remaining_seconds : Int
  deriving DecidableEq, Repr

/-- State of an `AlarmManager` (lines 33-36): the alarm registry, the task
table, plus the model bookkeeping for task handles (`cancelled`, `nextToken`). -/
structure AlarmManager where
  alarms : List (String × Alarm)
  alarm_tasks : List (String × Nat)
  cancelled : List Nat
  nextToken : Nat
  deriving DecidableEq, Repr

/-- A freshly constructed `AlarmManager` (the `__init__` at lines 33-36). -/
def AlarmManager.initial : AlarmManager :=
  { alarms := [], alarm_tasks := [], cancelled := [], nextToken := 0 }

/-- Observable effects of `_trigger_alarm`: the attempt to send the MCP
notification (lines 102-106) and the `logger.error` in the `except` arm
(lines 108-109). -/
inductive TriggerEvent where
  | sink_notify (alarm_id message : String) (triggered_at original_time : Int)
  | error_logged
  deriving DecidableEq, Repr

/-- `AlarmManager.delete_alarm` (lines 114-127): failure if the id is not
registered; otherwise cancel the task if one is registered, drop it from the
task table, and drop the alarm from the registry. -/
def delete_alarm (m : AlarmManager) (alarm_id : String) : AlarmManager × Bool :=
  if (m.alarms.lookup alarm_id).isSome then
    match m.alarm_tasks.lookup alarm_id with
    | some tok =>
        ({ alarms := m.alarms.filter (fun p => p.1 != alarm_id),
           alarm_tasks := m.alarm_tasks.filter (fun p => p.1 != alarm_id),
           cancelled := tok :: m.cancelled,
           nextToken := m.nextToken }, true)
    | none =>
        ({ m with alarms := m.alarms.filter (fun p => p.1 != alarm_id) }, true)
  else (m, false)

/-- `AlarmManager.create_alarm` (lines 38-61): reject a non-future time;
delete an existing alarm with the same id; register the new alarm and spawn
its waiter task. -/
def create_alarm (m : AlarmManager) (now : Int) (alarm_id : String)
    (alarm_time : Int) (message : String) : AlarmManager × Bool :=
  if alarm_time ≤ now then (m, false)
  else
    let m1 := if (m.alarms.lookup alarm_id).isSome then (delete_alarm m alarm_id).1 else m
    let alarm : Alarm :=
      { id := alarm_id, time := alarm_time, message := message, created_at := now }
    ({ alarms := m1.alarms ++ [(alarm_id, alarm)],
       alarm_tasks := m1.alarm_tasks ++ [(alarm_id, m1.nextToken)],
       cancelled := m1.cancelled,
       nextToken := m1.nextToken + 1 }, true)

/-- The post-sleep gate of `_wait_for_alarm` (line 76): the waiter calls
`_trigger_alarm` exactly when the id is still in `self.alarms` and the
entry's `active` flag holds. -/
def fire_check (m : AlarmManager) (alarm_id : String) : Bool :=
  match m.alarms.lookup alarm_id with
  | some alarm => alarm.active
  | none => false

/-- `AlarmManager._trigger_alarm` (lines 82-112): re-fetch the alarm (abort if
gone); if a session is present, attempt the sink notification, catching and
logging any failure; finally retire the entry via `delete_alarm`. The
environment booleans `session` and `send_fails` model
`self.mcp_app._session` being set and `send_notification` raising. -/
def trigger_alarm (m : AlarmManager) (now : Int) (alarm_id : String)
    (session : Bool) (send_fails : Bool) : AlarmManager × List TriggerEvent :=
  match m.alarms.lookup alarm_id with
  | none => (m, [])
  | some alarm =>
      let events :=
        if session then
          if send_fails then
            [TriggerEvent.sink_notify alarm_id alarm.message now alarm.time,
             TriggerEvent.error_logged]
          else
            [TriggerEvent.sink_notify alarm_id alarm.message now alarm.time]
        else []
      ((delete_alarm m alarm_id).1, events)

/-- `AlarmManager.get_alarm` (lines 143-156): pure read producing a snapshot
with `remaining_seconds = max(0, time - now)`. -/
def get_alarm (m : AlarmManager) (now : Int) (alarm_id : String) :
    Option AlarmSnapshot :=
  (m.alarms.lookup alarm_id).map fun alarm =>
    { id := alarm.id, time := alarm.time, message := alarm.message,
      created_at := alarm.created_at, active := alarm.active,
      remaining_seconds := max 0 (alarm.time - now) }

/-- `AlarmManager.list_alarms` (lines 129-141): pure read over the registry in
iteration (insertion) order. -/
def list_alarms (m : AlarmManager) (now : Int) : List AlarmSnapshot :=
  m.alarms.map fun p =>
    { id := p.2.id, time := p.2.time, message := p.2.message,
      created_at := p.2.created_at, active := p.2.active,
      remaining_seconds := max 0 (p.2.time - now) }

/-- The `snooze_alarm` tool (lines 313-351): failure if the id is absent;
otherwise delete the original and create a successor with id suffixed by
`"_snooze"`, deadline `now + minutes*60`, and a payload derived from the
original message, returning the success of that creation. -/
def snooze_alarm (m : AlarmManager) (now : Int) (alarm_id : String)
    (minutes : Int) : AlarmManager × Bool :=
  match get_alarm m now alarm_id with
  | none => (m, false)
  | some snap =>
      let m1 := (delete_alarm m alarm_id).1
      let new_time := now + minutes * 60
      let new_alarm_id := alarm_id ++ "_snooze"
      create_alarm m1 now new_alarm_id new_time ("贪睡闹钟: " ++ snap.message)

/-- One step of the scheduler: a caller-invoked operation, or a waiter whose
sleep has elapsed running `_trigger_alarm`. A waiter resumes only if its task
was never cancelled (`asyncio` delivers `CancelledError` at the suspension
point, and `_wait_for_alarm` then returns without firing, lines 79-80), and
its post-sleep gate `fire_check` (line 76) passes. -/
inductive Step : AlarmManager → AlarmManager → Prop where
  | create (m : AlarmManager) (now : Int) (alarm_id : String) (t : Int) (msg : String) :
      Step m (create_alarm m now alarm_id t msg).1
  | delete (m : AlarmManager) (alarm_id : String) :
      Step m (delete_alarm m alarm_id).1
  | fire (m : AlarmManager) (now : Int) (alarm_id : String) (tok : Nat)
      (session send_fails : Bool)
      (hreg : m.alarm_tasks.lookup alarm_id = some tok)
      (hlive : tok ∉ m.cancelled)
      (hgate : fire_check m alarm_id = true) :
      Step m (trigger_alarm m now alarm_id session send_fails).1
  | snooze (m : AlarmManager) (now : Int) (alarm_id : String) (minutes : Int) :
      Step m (snooze_alarm m now alarm_id minutes).1

/-- States reachable from a fresh manager by any sequence of operations. -/
def Reachable (m : AlarmManager) : Prop :=
  Relation.ReflTransGen Step AlarmManager.initial m

/-- Keys of an association list, in order. -/
def keys {α : Type} (l : List (String × α)) : List String := l.map Prod.fst

theorem keys_append {α : Type} (l1 l2 : List (String × α)) :
    keys (l1 ++ l2) = keys l1 ++ keys l2 := by
  simp [keys]

theorem keys_filter_ne {α : Type} (l : List (String × α)) (k : String) :
    keys (l.filter fun p => p.1 != k) = (keys l).filter (fun x => x != k) := by
  induction l with
  | nil => simp [keys]
  | cons p t ih =>
    simp only [keys] at ih ⊢
    by_cases h : p.1 = k
    · simp [List.filter_cons, h, ih]
    · simp [List.filter_cons, bne_iff_ne, h, ih]

theorem not_mem_keys_filter {α : Type} (l : List (String × α)) (k : String) :
    k ∉ keys (l.filter fun p => p.1 != k) := by
  rw [keys_filter_ne]
  intro hmem
  have := (List.mem_filter.1 hmem).2
  simp at this

theorem keys_filter_subset {α : Type} (l : List (String × α))
    (p : String × α → Bool) (k : String) (h : k ∉ keys l) :
    k ∉ keys (l.filter p) := by
  intro hmem
  apply h
  simp only [keys, List.mem_map] at hmem ⊢
  obtain ⟨q, hq, hqk⟩ := hmem
  exact ⟨q, (List.mem_filter.1 hq).1, hqk⟩

theorem lookup_eq_none_iff {α : Type} (l : List (String × α)) (k : String) :
    l.lookup k = none ↔ k ∉ keys l := by
  induction l with
  | nil => simp [keys]
  | cons p t ih =>
    obtain ⟨a, b⟩ := p
    by_cases h : k = a
    · subst h; simp [List.lookup, keys]
    · simp [List.lookup, keys, beq_false_of_ne h, h, ih]

theorem lookup_isSome_iff {α : Type} (l : List (String × α)) (k : String) :
    (l.lookup k).isSome = true ↔ k ∈ keys l := by
  constructor
  · intro hs
    by_contra hmem
    rw [(lookup_eq_none_iff l k).2 hmem] at hs
    simp at hs
  · intro hmem
    cases hl : l.lookup k with
    | none => exact absurd hmem ((lookup_eq_none_iff l k).1 hl)
    | some v => simp

theorem lookup_mem {α : Type} {l : List (String × α)} {k : String} {v : α}
    (h : l.lookup k = some v) : (k, v) ∈ l := by
  induction l with
  | nil => simp [List.lookup] at h
  | cons p t ih =>
    obtain ⟨a, b⟩ := p
    by_cases hk : k = a
    · subst hk
      simp [List.lookup] at h
      subst h
      exact List.mem_cons_self _ _
    · simp [List.lookup, beq_false_of_ne hk] at h
      exact List.mem_cons_of_mem _ (ih h)

theorem lookup_append_of_not_mem {α : Type} {l1 : List (String × α)}
    (l2 : List (String × α)) {k : String} (h : k ∉ keys l1) :
    (l1 ++ l2).lookup k = l2.lookup k := by
  induction l1 with
  | nil => simp
  | cons p t ih =>
    have hne : k ≠ p.1 := by
      intro hkp
      exact h (by simp [keys, hkp])
    have hmem : k ∉ keys t := by
      intro hm
      exact h (by simp [keys] at hm ⊢; exact Or.inr hm)
    obtain ⟨a, b⟩ := p
    simpa [List.lookup, beq_false_of_ne hne] using ih hmem

theorem lookup_filter_ne_self {α : Type} (l : List (String × α)) (k : String) :
    (l.filter fun p => p.1 != k).lookup k = none :=
  (lookup_eq_none_iff _ _).2 (not_mem_keys_filter l k)

theorem filter_beq_eq_nil {α : Type} {l : List (String × α)} {k : String}
    (h : k ∉ keys l) : l.filter (fun p => p.1 == k) = [] := by
  rw [List.filter_eq_nil_iff]
  intro p hp hpk
  exact h (by simp only [keys, List.mem_map]; exact ⟨p, hp, (eq_of_beq hpk).symm ▸ rfl⟩)

theorem delete_not_mem_alarms (m : AlarmManager) (k : String) :
    k ∉ keys ((delete_alarm m k).1).alarms := by
  unfold delete_alarm
  cases hl : m.alarms.lookup k with
  | none =>
    simp only [hl, Option.isSome_none, Bool.false_eq_true, if_false]
    exact (lookup_eq_none_iff _ _).1 hl
  | some a =>
    cases ht : m.alarm_tasks.lookup k with
    | none =>
      simp only [hl, ht, Option.isSome_some, if_true]
      exact not_mem_keys_filter _ _
    | some tok =>
      simp only [hl, ht, Option.isSome_some, if_true]
      exact not_mem_keys_filter _ _

theorem delete_cancelled_subset (m : AlarmManager) (k : String) :
    m.cancelled ⊆ ((delete_alarm m k).1).cancelled := by
  unfold delete_alarm
  cases hl : m.alarms.lookup k with
  | none => simp [hl]
  | some a =>
    cases ht : m.alarm_tasks.lookup k with
    | none => simp [hl, ht]
    | some tok =>
      simp only [hl, ht, Option.isSome_some, if_true]
      exact fun x hx => List.mem_cons_of_mem _ hx

theorem create_cancelled_subset (m : AlarmManager) (now : Int) (k : String)
    (t : Int) (msg : String) :
    m.cancelled ⊆ ((create_alarm m now k t msg).1).cancelled := by
  unfold create_alarm
  by_cases hle : t ≤ now
  · simp [hle]
  · simp only [hle, if_false]
    by_cases hl : (m.alarms.lookup k).isSome = true
    · simp only [hl, if_true]
      exact delete_cancelled_subset m k
    · simp only [hl, Bool.false_eq_true, if_false]
      exact fun x hx => hx

theorem trigger_cancelled_subset (m : AlarmManager) (now : Int) (k : String)
    (session send_fails : Bool) :
    m.cancelled ⊆ ((trigger_alarm m now k session send_fails).1).cancelled := by
  unfold trigger_alarm
  cases hl : m.alarms.lookup k with
  | none => simp [hl]
  | some a =>
    simp only [hl]
    exact delete_cancelled_subset m k

theorem snooze_cancelled_subset (m : AlarmManager) (now : Int) (k : String)
    (minutes : Int) :
    m.cancelled ⊆ ((snooze_alarm m now k minutes).1).cancelled := by
  unfold snooze_alarm
  cases hg : get_alarm m now k with
  | none => simp [hg]
  | some s =>
    simp only [hg]
    exact (delete_cancelled_subset m k).trans (create_cancelled_subset _ _ _ _ _)

theorem step_cancelled_subset {m m' : AlarmManager} (h : Step m m') :
    m.cancelled ⊆ m'.cancelled := by
  cases h with
  | create now k t msg => exact create_cancelled_subset m now k t msg
  | delete k => exact delete_cancelled_subset m k
  | fire now k tok sp sf hreg hlive hgate => exact trigger_cancelled_subset m now k sp sf
  | snooze now k minutes => exact snooze_cancelled_subset m now k minutes

theorem rtg_cancelled_subset {m m' : AlarmManager}
    (h : Relation.ReflTransGen Step m m') : m.cancelled ⊆ m'.cancelled := by
  induction h with
  | refl => exact fun _ hx => hx
  | tail _ hstep ih => exact ih.trans (step_cancelled_subset hstep)

/-- The registry/waiter-table coupling invariant plus the fact that no entry
ever has `active = false`. -/
def SchedInv (m : AlarmManager) : Prop :=
  keys m.alarms = keys m.alarm_tasks ∧ (keys m.alarms).Nodup ∧
  ∀ p ∈ m.alarms, p.2.active = true

theorem inv_initial : SchedInv AlarmManager.initial := by
  refine ⟨rfl, ?_, ?_⟩ <;> simp [AlarmManager.initial, keys]

theorem inv_delete {m : AlarmManager} (h : SchedInv m) (k : String) :
    SchedInv ((delete_alarm m k).1) := by
  obtain ⟨hkeq, hnd, hact⟩ := h
  unfold delete_alarm
  cases hl : m.alarms.lookup k with
  | none =>
    simp only [hl, Option.isSome_none, Bool.false_eq_true, if_false]
    exact ⟨hkeq, hnd, hact⟩
  | some a =>
    cases ht : m.alarm_tasks.lookup k with
    | none =>
      exfalso
      have hmem : k ∈ keys m.alarms := (lookup_isSome_iff _ _).1 (by simp [hl])
      rw [hkeq] at hmem
      exact ((lookup_eq_none_iff _ _).1 ht) hmem
    | some tok =>
      simp only [hl, ht, Option.isSome_some, if_true]
      refine ⟨?_, ?_, ?_⟩
      · show keys (m.alarms.filter _) = keys (m.alarm_tasks.filter _)
        rw [keys_filter_ne, keys_filter_ne, hkeq]
      · show (keys (m.alarms.filter _)).Nodup
        rw [keys_filter_ne]
        exact hnd.filter _
      · intro p hp
        exact hact p (List.mem_filter.1 hp).1

theorem inv_create {m : AlarmManager} (h : SchedInv m) (now : Int) (k : String)
    (t : Int) (msg : String) : SchedInv ((create_alarm m now k t msg).1) := by
  unfold create_alarm
  by_cases hle : t ≤ now
  · simpa [hle] using h
  · simp only [hle, if_false]
    have h1 : SchedInv (if (m.alarms.lookup k).isSome then (delete_alarm m k).1 else m) := by
      split
      · exact inv_delete h k
      · exact h
    have hk1 : k ∉ keys (if (m.alarms.lookup k).isSome then
        (delete_alarm m k).1 else m).alarms := by
      split
      · exact delete_not_mem_alarms m k
      · next hcond =>
          exact (lookup_eq_none_iff _ _).1
            (Option.not_isSome_iff_eq_none.1 (by simpa using hcond))
    obtain ⟨hkeq, hnd, hact⟩ := h1
    refine ⟨?_, ?_, ?_⟩
    · show keys (_ ++ _) = keys (_ ++ _)
      rw [keys_append, keys_append, hkeq]
      simp [keys]
    · show (keys (_ ++ _)).Nodup
      rw [keys_append, List.nodup_append]
      refine ⟨hnd, by simp [keys], ?_⟩
      intro x hx
      simp [keys]
      intro hxk
      rw [hxk] at hx
      exact absurd hx hk1
    · intro p hp
      rcases List.mem_append.1 hp with hp | hp
      · exact hact p hp
      · simp only [List.mem_singleton] at hp
        subst hp
        rfl

theorem inv_trigger {m : AlarmManager} (h : SchedInv m) (now : Int) (k : String)
    (session send_fails : Bool) :
    SchedInv ((trigger_alarm m now k session send_fails).1) := by
  unfold trigger_alarm
  cases hl : m.alarms.lookup k with
  | none => simpa [hl] using h
  | some a =>
    simp only [hl]
    exact inv_delete h k

theorem inv_snooze {m : AlarmManager} (h : SchedInv m) (now : Int) (k : String)
    (minutes : Int) : SchedInv ((snooze_alarm m now k minutes).1) := by
  unfold snooze_alarm
  cases hg : get_alarm m now k with
  | none => simpa [hg] using h
  | some s =>
    simp only [hg]
    exact inv_create (inv_delete h k) now _ _ _

theorem inv_step {m m' : AlarmManager} (hs : Step m m') (h : SchedInv m) : SchedInv m' := by
  cases hs with
  | create now k t msg => exact inv_create h now k t msg
  | delete k => exact inv_delete h k
  | fire now k tok sp sf hreg hlive hgate => exact inv_trigger h now k sp sf
  | snooze now k minutes => exact inv_snooze h now k minutes

theorem inv_reachable {m : AlarmManager} (h : Reachable m) : SchedInv m := by
  induction h with
  | refl => exact inv_initial
  | tail _ hstep ih => exact inv_step hstep ih

theorem delete_cancelled_mem (m : AlarmManager) (k : String) (tok : Nat)
    (hl : (m.alarms.lookup k).isSome = true)
    (ht : m.alarm_tasks.lookup k = some tok) :
    tok ∈ ((delete_alarm m k).1).cancelled := by
  unfold delete_alarm
  simp only [hl, if_true, ht]
  exact List.mem_cons_self _ _

theorem delete_keys_mono (m : AlarmManager) (k k' : String)
    (h : k' ∉ keys m.alarms) : k' ∉ keys ((delete_alarm m k).1).alarms := by
  unfold delete_alarm
  cases hl : m.alarms.lookup k with
  | none => simpa [hl] using h
  | some a =>
    cases ht : m.alarm_tasks.lookup k with
    | none =>
      simp only [hl, ht, Option.isSome_some, if_true]
      exact keys_filter_subset _ _ _ h
    | some tok =>
      simp only [hl, ht, Option.isSome_some, if_true]
      exact keys_filter_subset _ _ _ h

theorem create_future_snd (m : AlarmManager) (now : Int) (k : String) (t : Int)
    (msg : String) (h : now < t) : (create_alarm m now k t msg).2 = true := by
  unfold create_alarm
  rw [if_neg (not_le.2 h)]

theorem create_future_alarms (m : AlarmManager) (now : Int) (k : String)
    (t : Int) (msg : String) (h : now < t) :
    ((create_alarm m now k t msg).1).alarms =
      (if (m.alarms.lookup k).isSome = true then (delete_alarm m k).1 else m).alarms
        ++ [(k, { id := k, time := t, message := msg, created_at := now,
                  active := true })] := by
  unfold create_alarm
  rw [if_neg (not_le.2 h)]

theorem create_future_cancelled (m : AlarmManager) (now : Int) (k : String)
    (t : Int) (msg : String) (h : now < t) :
    ((create_alarm m now k t msg).1).cancelled =
      (if (m.alarms.lookup k).isSome = true then (delete_alarm m k).1 else m).cancelled := by
  unfold create_alarm
  rw [if_neg (not_le.2 h)]

theorem create_base_not_mem (m : AlarmManager) (k : String) :
    k ∉ keys (if (m.alarms.lookup k).isSome = true then
      (delete_alarm m k).1 else m).alarms := by
  split
  · exact delete_not_mem_alarms m k
  · next hcond =>
      exact (lookup_eq_none_iff _ _).1
        (Option.not_isSome_iff_eq_none.1 (by simpa using hcond))

theorem create_lookup_self (m : AlarmManager) (now : Int) (k : String)
    (t : Int) (msg : String) (h : now < t) :
    ((create_alarm m now k t msg).1).alarms.lookup k =
      some { id := k, time := t, message := msg, created_at := now,
             active := true } := by
  rw [create_future_alarms m now k t msg h,
    lookup_append_of_not_mem _ (create_base_not_mem m k)]
  simp [List.lookup]

theorem create_lookup_other (m : AlarmManager) (now : Int) (k k' : String)
    (t : Int) (msg : String) (hk : k' ∉ keys m.alarms) (hne : k' ≠ k) :
    ((create_alarm m now k t msg).1).alarms.lookup k' = none := by
  unfold create_alarm
  by_cases hle : t ≤ now
  · simp only [hle, if_true]
    exact (lookup_eq_none_iff _ _).2 hk
  · simp only [hle, if_false]
    have hk1 : k' ∉ keys (if (m.alarms.lookup k).isSome = true then
        (delete_alarm m k).1 else m).alarms := by
      split
      · exact delete_keys_mono m k k' hk
      · exact hk
    rw [lookup_append_of_not_mem _ hk1]
    simp [List.lookup, beq_false_of_ne hne]

theorem ne_append_snooze (s : String) : s ≠ s ++ "_snooze" := by
  intro h
  have h2 := congrArg String.length h
  rw [String.length_append] at h2
  have h3 : ("_snooze" : String).length = 7 := rfl
  omega

/-- The state after one successful `create_alarm` on a fresh manager; the
concrete input used by the witnesses below. -/
def sampleM : AlarmManager :=
  (create_alarm AlarmManager.initial 0 "a" 5 "hello").1

/-- The single registry entry of `sampleM`. -/
def sampleAlarm : Alarm :=
  { id := "a", time := 5, message := "hello", created_at := 0, active := true }

/-- The snapshot `get_alarm sampleM 9 "a"` produces: the deadline 5 already
passed at time 9, yet `remaining_seconds` is floored at 0. -/
def sampleSnap : AlarmSnapshot :=
  { id := "a", time := 5, message := "hello", created_at := 0, active := true,
    remaining_seconds := 0 }

/-- C1: `create_alarm` over an already-registered id (lines 44-45 call
`delete_alarm` first) returns success, leaves exactly one registry binding
for the id — carrying the new deadline and payload — and cancels the
superseded waiter's task token; the token stays cancelled in every state
reachable afterwards, and a `fire` step requires an uncancelled token, so the
superseded waiter never fires. -/
theorem claim1_replace_on_reuse (m : AlarmManager) (now t2 : Int)
    (alarm_id msg2 : String) (oldTok : Nat)
    (hprev : (m.alarms.lookup alarm_id).isSome = true)
    (htok : m.alarm_tasks.lookup alarm_id = some oldTok)
    (hfut : now < t2) :
    (create_alarm m now alarm_id t2 msg2).2 = true ∧
    ((create_alarm m now alarm_id t2 msg2).1).alarms.filter
        (fun p => p.1 == alarm_id) =
      [(alarm_id, { id := alarm_id, time := t2, message := msg2,
                    created_at := now, active := true })] ∧
    ∀ m', Relation.ReflTransGen Step (create_alarm m now alarm_id t2 msg2).1 m' →
      oldTok ∈ m'.cancelled ∧
      ∀ k, ¬(m'.alarm_tasks.lookup k = some oldTok ∧
        oldTok ∉ m'.cancelled ∧ fire_check m' k = true) := by
  have hmem0 : oldTok ∈ ((create_alarm m now alarm_id t2 msg2).1).cancelled := by
    rw [create_future_cancelled m now alarm_id t2 msg2 hfut, if_pos hprev]
    exact delete_cancelled_mem m alarm_id oldTok hprev htok
  refine ⟨create_future_snd m now alarm_id t2 msg2 hfut, ?_, ?_⟩
  · rw [create_future_alarms m now alarm_id t2 msg2 hfut, List.filter_append,
      filter_beq_eq_nil (if_pos hprev ▸ delete_not_mem_alarms m alarm_id)]
    simp
  · intro m' hm'
    have hc := rtg_cancelled_subset hm' hmem0
    exact ⟨hc, fun k hcontra => hcontra.2.1 hc⟩

theorem claim1_witness :
    ((sampleM.alarms.lookup "a").isSome = true ∧
      sampleM.alarm_tasks.lookup "a" = some 0 ∧ (1 : Int) < 7) ∧
    ((create_alarm sampleM 1 "a" 7 "m2").2 = true ∧
      ((create_alarm sampleM 1 "a" 7 "m2").1).alarms.filter
          (fun p => p.1 == "a") =
        [("a", { id := "a", time := 7, message := "m2", created_at := 1,
                 active := true })] ∧
      ∀ m', Relation.ReflTransGen Step (create_alarm sampleM 1 "a" 7 "m2").1 m' →
        (0 : Nat) ∈ m'.cancelled ∧
        ∀ k, ¬(m'.alarm_tasks.lookup k = some 0 ∧
          (0 : Nat) ∉ m'.cancelled ∧ fire_check m' k = true)) :=
  ⟨⟨by decide, by decide, by decide⟩,
   claim1_replace_on_reuse sampleM 1 7 "a" "m2" 0 (by decide) (by decide)
     (by decide)⟩

/-- C2: when the sink invocation fails during firing, `_trigger_alarm` still
returns normally (a total function here: the `except` at lines 108-109 keeps
the error from propagating to any caller), the failure is logged, the sink is
invoked exactly once (the event list holds a single `sink_notify`, so firing
is not retried), and the entry is still removed from the registry by the
`delete_alarm` at line 112. -/
theorem claim2_sink_failure_isolated (m : AlarmManager) (now : Int)
    (alarm_id : String) (a : Alarm)
    (h : m.alarms.lookup alarm_id = some a) :
    (trigger_alarm m now alarm_id true true).2 =
      [TriggerEvent.sink_notify alarm_id a.message now a.time,
       TriggerEvent.error_logged] ∧
    ((trigger_alarm m now alarm_id true true).1).alarms.lookup alarm_id =
      none := by
  unfold trigger_alarm
  simp only [h]
  refine ⟨rfl, ?_⟩
  unfold delete_alarm
  simp only [h, Option.isSome_some, if_true]
  cases ht : m.alarm_tasks.lookup alarm_id with
  | none =>
    simp only [ht]
    exact lookup_filter_ne_self _ _
  | some tok =>
    simp only [ht]
    exact lookup_filter_ne_self _ _

theorem claim2_witness :
    sampleM.alarms.lookup "a" = some sampleAlarm ∧
    (trigger_alarm sampleM 6 "a" true true).2 =
      [TriggerEvent.sink_notify "a" "hello" 6 5, TriggerEvent.error_logged] ∧
    ((trigger_alarm sampleM 6 "a" true true).1).alarms.lookup "a" = none :=
  ⟨by decide,
   (claim2_sink_failure_isolated sampleM 6 "a" sampleAlarm (by decide)).1,
   (claim2_sink_failure_isolated sampleM 6 "a" sampleAlarm (by decide)).2⟩

/-- C3 counterexample: in the state reached by one `create_alarm`, the firing
protocol's final step (line 112 calls `delete_alarm`) DOES issue a
cancellation request against the waiter's own task: token 0 is the task
registered for `"a"`, it is not cancelled beforehand, and it is cancelled in
the state `_trigger_alarm` leaves behind — refuting the claim that no
cancellation request is issued against the waiter's own task. -/
theorem claim3_counterexample :
    sampleM.alarm_tasks.lookup "a" = some 0 ∧
    (0 : Nat) ∉ sampleM.cancelled ∧
    (0 : Nat) ∈ ((trigger_alarm sampleM 6 "a" true false).1).cancelled := by
  decide

/-- C3 amended: step 4 of the firing protocol removes the entry and its
handle from the registry via `delete_alarm`, which also issues a cancellation
request against the waiter's own registered task (harmless, as the waiter is
already at its terminal point); nothing else in the state changes. -/
theorem claim3_fire_retires_via_delete (m : AlarmManager) (now : Int)
    (alarm_id : String) (a : Alarm) (tok : Nat) (session send_fails : Bool)
    (hl : m.alarms.lookup alarm_id = some a)
    (ht : m.alarm_tasks.lookup alarm_id = some tok) :
    (trigger_alarm m now alarm_id session send_fails).1 =
      { alarms := m.alarms.filter (fun p => p.1 != alarm_id),
        alarm_tasks := m.alarm_tasks.filter (fun p => p.1 != alarm_id),
        cancelled := tok :: m.cancelled,
        nextToken := m.nextToken } := by
  unfold trigger_alarm delete_alarm
  simp only [hl, ht, Option.isSome_some, if_true]

theorem claim3_witness :
    sampleM.alarms.lookup "a" = some sampleAlarm ∧
    sampleM.alarm_tasks.lookup "a" = some 0 ∧
    (trigger_alarm sampleM 6 "a" true false).1 =
      { alarms := [], alarm_tasks := [], cancelled := [0], nextToken := 1 } :=
  ⟨by decide, by decide,
   (claim3_fire_retires_via_delete sampleM 6 "a" sampleAlarm 0 true false
     (by decide) (by decide)).trans (by decide)⟩

/-- A state whose single entry has `active = false`. No operation of the code
produces such a state, but claim C4 quantifies over the flag's value. -/
def inactiveM : AlarmManager :=
  { alarms := [("a", { id := "a", time := 3, message := "x", created_at := 0,
                       active := false })],
    alarm_tasks := [("a", 0)], cancelled := [], nextToken := 1 }

/-- C4 counterexample: with `active = false` the entry is still registered,
yet the waiter's post-sleep gate (line 76 conjoins membership with
`self.alarms[alarm_id].active`) is false, so the waiter does NOT proceed to
`_trigger_alarm`: firing is not unconditional in the flag's value. -/
theorem claim4_counterexample :
    inactiveM.alarms.lookup "a" ≠ none ∧ fire_check inactiveM "a" = false := by
  decide

/-- C4 amended: the waiter proceeds to the firing protocol iff the entry is
still registered AND its `active` flag is true — the flag does gate firing at
line 76, although no code path ever sets it to false. -/
theorem claim4_active_gates_fire (m : AlarmManager) (alarm_id : String) :
    fire_check m alarm_id = true ↔
      ∃ a, m.alarms.lookup alarm_id = some a ∧ a.active = true := by
  unfold fire_check
  cases hl : m.alarms.lookup alarm_id with
  | none => simp
  | some a => simp

/-- C5: `create_alarm` with a deadline not strictly later than the current
time (lines 40-41) returns failure and changes nothing at all: the returned
state is the input state, so no entry is inserted, no waiter task is started,
and any existing entry under the id is untouched. -/
theorem claim5_past_deadline_rejected (m : AlarmManager) (now : Int)
    (alarm_id : String) (t : Int) (msg : String) (h : t ≤ now) :
    create_alarm m now alarm_id t msg = (m, false) := by
  unfold create_alarm
  simp [h]

theorem claim5_witness :
    (5 : Int) ≤ 5 ∧ create_alarm sampleM 5 "b" 5 "x" = (sampleM, false) :=
  ⟨le_refl 5, claim5_past_deadline_rejected sampleM 5 "b" 5 "x" (le_refl 5)⟩

/-- C6: in every state reachable by any sequence of create / delete / snooze
/ firing steps, the registry and the task table have duplicate-free key lists
(at most one entry and one waiter handle per id), and an id is in the
registry iff it is in the task table: entries and waiter handles are always
added and removed together. -/
theorem claim6_registry_task_sync (m : AlarmManager) (h : Reachable m) :
    (keys m.alarms).Nodup ∧ (keys m.alarm_tasks).Nodup ∧
    ∀ alarm_id, alarm_id ∈ keys m.alarms ↔ alarm_id ∈ keys m.alarm_tasks := by
  have hinv := inv_reachable h
  exact ⟨hinv.2.1, hinv.1 ▸ hinv.2.1, fun alarm_id => by rw [hinv.1]⟩

theorem claim6_witness :
    Reachable sampleM ∧
    ((keys sampleM.alarms).Nodup ∧ (keys sampleM.alarm_tasks).Nodup ∧
      ∀ alarm_id, alarm_id ∈ keys sampleM.alarms ↔
        alarm_id ∈ keys sampleM.alarm_tasks) :=
  ⟨Relation.ReflTransGen.single
     (Step.create AlarmManager.initial 0 "a" 5 "hello"),
   claim6_registry_task_sync sampleM
     (Relation.ReflTransGen.single
       (Step.create AlarmManager.initial 0 "a" 5 "hello"))⟩

/-- C7: `snooze_alarm` on an existing entry (lines 313-351) deletes the entry
under the original id, creates a successor under the id suffixed `"_snooze"`
with deadline `now + minutes*60` and a payload derived from the original
message, returns the success of that creation, and afterwards `get_alarm` on
the original id is `none`. -/
theorem claim7_snooze (m : AlarmManager) (now : Int) (alarm_id : String)
    (minutes : Int) (snap : AlarmSnapshot)
    (hget : get_alarm m now alarm_id = some snap) (hpos : 0 < minutes) :
    (snooze_alarm m now alarm_id minutes).2 = true ∧
    ((snooze_alarm m now alarm_id minutes).1).alarms.lookup
        (alarm_id ++ "_snooze") =
      some { id := alarm_id ++ "_snooze", time := now + minutes * 60,
             message := "贪睡闹钟: " ++ snap.message, created_at := now,
             active := true } ∧
    get_alarm ((snooze_alarm m now alarm_id minutes).1) now alarm_id =
      none := by
  have hlt : now < now + minutes * 60 := by omega
  unfold snooze_alarm
  simp only [hget]
  refine ⟨create_future_snd _ now _ _ _ hlt,
    create_lookup_self _ now _ _ _ hlt, ?_⟩
  unfold get_alarm
  rw [create_lookup_other _ now _ alarm_id _ _
    (delete_not_mem_alarms m alarm_id) (ne_append_snooze alarm_id)]
  rfl

theorem claim7_witness :
    get_alarm sampleM 1 "a" =
      some { id := "a", time := 5, message := "hello", created_at := 0,
             active := true, remaining_seconds := 4 } ∧
    (0 : Int) < 5 ∧
    ((snooze_alarm sampleM 1 "a" 5).2 = true ∧
      ((snooze_alarm sampleM 1 "a" 5).1).alarms.lookup "a_snooze" =
        some { id := "a_snooze", time := 301, message := "贪睡闹钟: hello",
               created_at := 1, active := true } ∧
      get_alarm ((snooze_alarm sampleM 1 "a" 5).1) 1 "a" = none) :=
  ⟨by decide, by decide,
   claim7_snooze sampleM 1 "a" 5
     { id := "a", time := 5, message := "hello", created_at := 0,
       active := true, remaining_seconds := 4 }
     (by decide) (by decide)⟩

/-- C8: `delete_alarm` on an id with no registered entry (lines 116-117)
returns failure and the returned state is the input state — registry and
task table unchanged; as a total function it raises nothing. -/
theorem claim8_delete_missing (m : AlarmManager) (alarm_id : String)
    (h : m.alarms.lookup alarm_id = none) :
    delete_alarm m alarm_id = (m, false) := by
  unfold delete_alarm
  simp [h]

theorem claim8_witness :
    sampleM.alarms.lookup "zzz" = none ∧
    delete_alarm sampleM "zzz" = (sampleM, false) :=
  ⟨by decide, claim8_delete_missing sampleM "zzz" (by decide)⟩

/-- C9: `get_alarm` and `list_alarms` are pure reads — in this embedding they
are functions that return snapshots without producing a successor state — and
every snapshot carries `remaining_seconds = max 0 (time - now)`, hence never
negative, including for an entry whose deadline has already passed. -/
theorem claim9_get_list_remaining (m : AlarmManager) (now : Int) :
    (∀ alarm_id s, get_alarm m now alarm_id = some s →
      s.remaining_seconds = max 0 (s.time - now) ∧ 0 ≤ s.remaining_seconds) ∧
    (∀ s ∈ list_alarms m now,
      s.remaining_seconds = max 0 (s.time - now) ∧
        0 ≤ s.remaining_seconds) := by
  constructor
  · intro alarm_id s hs
    unfold get_alarm at hs
    cases hl : m.alarms.lookup alarm_id with
    | none => rw [hl] at hs; simp at hs
    | some a =>
      rw [hl] at hs
      have hs2 := Option.some.inj hs
      rw [← hs2]
      exact ⟨rfl, le_max_left _ _⟩
  · intro s hs
    unfold list_alarms at hs
    simp only [List.mem_map] at hs
    obtain ⟨p, hp, rfl⟩ := hs
    exact ⟨rfl, le_max_left _ _⟩

theorem claim9_witness :
    get_alarm sampleM 9 "a" = some sampleSnap ∧
    sampleSnap.remaining_seconds = max 0 (sampleSnap.time - 9) ∧
    0 ≤ sampleSnap.remaining_seconds :=
  ⟨by decide,
   (claim9_get_list_remaining sampleM 9).1 "a" sampleSnap (by decide)⟩

/-- C10: in every reachable state every registered entry has `active = true`
(the dataclass default at line 28, and no code path mutates the flag), so the
waiter's pre-firing check of `active` at line 76 never suppresses the firing
of a still-registered entry. -/
theorem claim10_active_always_true (m : AlarmManager) (h : Reachable m)
    (alarm_id : String) (a : Alarm)
    (hl : m.alarms.lookup alarm_id = some a) :
    a.active = true ∧ fire_check m alarm_id = true := by
  have hinv := inv_reachable h
  have hact := hinv.2.2 _ (lookup_mem hl)
  refine ⟨hact, ?_⟩
  unfold fire_check
  rw [hl]
  exact hact

theorem claim10_witness :
    Reachable sampleM ∧ sampleM.alarms.lookup "a" = some sampleAlarm ∧
    sampleAlarm.active = true ∧ fire_check sampleM "a" = true :=
  ⟨Relation.ReflTransGen.single
     (Step.create AlarmManager.initial 0 "a" 5 "hello"),
   by decide,
   claim10_active_always_true sampleM
     (Relation.ReflTransGen.single
       (Step.create AlarmManager.initial 0 "a" 5 "hello"))
     "a" sampleAlarm (by decide)⟩

example : (create_alarm AlarmManager.initial 0 "a" 5 "hi").2 = true := by decide
example : (create_alarm AlarmManager.initial 0 "a" (-1) "hi").2 = false := by decide
example :
    get_alarm (create_alarm AlarmManager.initial 0 "a" 5 "hi").1 2 "a" =
      some { id := "a", time := 5, message := "hi", created_at := 0,
             active := true, remaining_seconds := 3 } := by decide
example :
    (snooze_alarm (create_alarm AlarmManager.initial 0 "a" 5 "hi").1 1 "a" 5).1.alarms.lookup
      "a_snooze" =
      some { id := "a_snooze", time := 301, message := "贪睡闹钟: hi", created_at := 1,
             active := true } := by decide
